import Mathlib

/-!
Verification development for the `accesslog` Go package (github.com/0xa4b/accesslog).

The package is an HTTP access-logging middleware.  Its core is pure:

* `FormatWith` (src/log.go, lines 318-382) scans an Apache-style format
  string once into two lockstep slices `directives`/`betweens`;
* `flatten` (lines 263-303) renders a compiled pair list against a request,
  a captured response writer and an instant, memoising each directive's
  value in a `line` struct (lines 168-260);
* `convertTimeFormat` (lines 106-165) translates a strftime-like
  sub-format into a Go `time.Format` layout plus deferred numeric
  substitutions;
* `responseWriter` (lines 41-66) records the response status (first write
  wins, an implicit 200 on a body write) and the byte count.

This file shallowly embeds those functions over explicit data and proves
the frozen claims about them.  Go strings are modelled as Lean `String`
(byte-for-char faithful on the ASCII data the claims touch; base64-decoded
bytes are represented as characters with the byte's code point).  The Go
standard-library pieces the source calls (`time.Time.Format`,
`fmt.Sprintf`, `base64.StdEncoding.DecodeString`, `strings.SplitN`,
`strings.ToUpper`, `unicode.IsLetter`) are modelled on the fragment of
their behaviour reachable from this package, as documented at each
definition.
-/

/-- Decimal digits of a natural number, `Nat.repr`. -/
def natStr (n : Nat) : String := Nat.repr n

/-- Decimal rendering of a Go `int` by `strconv.Itoa`: Lean `Int.repr`
agrees with it (optional leading minus sign, then digits). -/
def itoa (i : Int) : String := Int.repr i

/-- Zero-padded two-digit rendering, as Go `appendInt(buf, n, 2)` does for
the layout chunks `01 02 03 04 05 06 15`. -/
def pad2 (n : Nat) : String := if n < 10 then "0" ++ natStr n else natStr n

/-- Zero-padded four-digit rendering for the layout chunk `2006`. -/
def pad4Int (y : Int) : String :=
  let a := y.natAbs
  let digits :=
    if a < 10 then "000" ++ natStr a
    else if a < 100 then "00" ++ natStr a
    else if a < 1000 then "0" ++ natStr a
    else natStr a
  (if y < 0 then "-" else "") ++ digits

/-- Rendering of the layout chunk `-0700`: sign of the zone offset, then
hours and minutes of its absolute value, both zero padded. -/
def goOffset (offsetMinutes : Int) : String :=
  (if offsetMinutes < 0 then "-" else "+") ++
    pad2 (offsetMinutes.natAbs / 60) ++ pad2 (offsetMinutes.natAbs % 60)

/-- Concatenation of string pieces, as the successive
`bytes.Buffer.WriteString` calls in `flatten` produce. -/
def strJoin : List String → String
  | [] => ""
  | s :: rest => s ++ strJoin rest

/-- Split at the first occurrence of a separator character.
`some (before, after)` iff the separator occurs. -/
def splitFirst (sep : Char) : List Char → Option (List Char × List Char)
  | [] => none
  | c :: cs =>
    if c = sep then some ([], cs)
    else (splitFirst sep cs).map (fun pr => (c :: pr.1, pr.2))

/-- Go `strings.SplitN(s, string(sep), 2)` restricted to the shape the
source inspects: the source only acts when the result has length 2, which
happens exactly when `sep` occurs in `s`; `none` models the length-1
result.  (`sep` is a single ASCII byte in every call site, so byte-level
and character-level splitting agree.) -/
def splitN2 (s : String) (sep : Char) : Option (String × String) :=
  (splitFirst sep s.data).map (fun pr => (String.mk pr.1, String.mk pr.2))

/-- Go `strings.ToUpper`, restricted to ASCII (all call sites pass HTTP
method names). -/
def goToUpper (s : String) : String := String.mk (s.data.map Char.toUpper)

/-- Go `unicode.IsLetter`, restricted to ASCII (agrees with the Go
function on every character appearing in the claims; the full Unicode
letter table is out of scope). -/
def goIsLetter (c : Char) : Bool := c.isAlpha

/-- Model of a Go `time.Time` as the source reads it: wall-clock
components in the value's own location, the zone data, and the derived
quantities (`Unix`, `Weekday`, `YearDay`, `ISOWeek`) carried explicitly
instead of being recomputed from a calendar.  A value is meaningful when
the derived fields agree with the wall clock; the concrete fixture below
is checked against the repository's own test expectations. -/
structure GoTime where
  year : Int
  month : Nat
  day : Nat
  hour : Nat
  minute : Nat
  second : Nat
  offsetMinutes : Int
  zoneName : String
  unix : Int
  weekday : Int
  yearDay : Int
  isoYear : Int
  isoWeek : Int

/-- Short month names used by the `Jan` layout chunk. -/
def monthShort (m : Nat) : String :=
  ["Jan", "Feb", "Mar", "Apr", "May", "Jun",
   "Jul", "Aug", "Sep", "Oct", "Nov", "Dec"].getD (m - 1) "%!Month"

/-- Long month names used by the `January` layout chunk. -/
def monthLong (m : Nat) : String :=
  ["January", "February", "March", "April", "May", "June", "July",
   "August", "September", "October", "November", "December"].getD (m - 1) "%!Month"

/-- Short weekday names used by the `Mon` layout chunk (Sunday first, as
Go `time.Weekday` numbers them). -/
def weekdayShort (w : Int) : String :=
  ["Sun", "Mon", "Tue", "Wed", "Thu", "Fri", "Sat"].getD w.toNat "%!Weekday"

/-- Long weekday names used by the `Monday` layout chunk. -/
def weekdayLong (w : Int) : String :=
  ["Sunday", "Monday", "Tuesday", "Wednesday", "Thursday", "Friday",
   "Saturday"].getD w.toNat "%!Weekday"

/-- Twelve-hour clock value used by the `3` and `03` layout chunks. -/
def hour12 (h : Nat) : Nat := if h % 12 = 0 then 12 else h % 12

/-- Model of Go `time.Time.Format`: a left-to-right scan of the layout
replacing each reference-time chunk by the corresponding component of
`t`.  The chunk set contains every chunk that occurs in a layout this
development evaluates (the fixed `%t` pattern, every entry of
`timeFmtMap`, and pass-through text such as the placeholder `%v`), with
Go's longest-match priority at each starting character.  Characters that
start no chunk are copied verbatim, as Go does. -/
def goFmtChars (t : GoTime) : List Char → List Char
  | [] => []
  | 'J' :: 'a' :: 'n' :: 'u' :: 'a' :: 'r' :: 'y' :: rest =>
      (monthLong t.month).data ++ goFmtChars t rest
  | 'J' :: 'a' :: 'n' :: rest => (monthShort t.month).data ++ goFmtChars t rest
  | 'M' :: 'o' :: 'n' :: 'd' :: 'a' :: 'y' :: rest =>
      (weekdayLong t.weekday).data ++ goFmtChars t rest
  | 'M' :: 'o' :: 'n' :: rest => (weekdayShort t.weekday).data ++ goFmtChars t rest
  | 'M' :: 'S' :: 'T' :: rest => t.zoneName.data ++ goFmtChars t rest
  | '2' :: '0' :: '0' :: '6' :: rest => (pad4Int t.year).data ++ goFmtChars t rest
  | '2' :: rest => (natStr t.day).data ++ goFmtChars t rest
  | '1' :: '5' :: rest => (pad2 t.hour).data ++ goFmtChars t rest
  | '1' :: rest => (natStr t.month).data ++ goFmtChars t rest
  | '3' :: rest => (natStr (hour12 t.hour)).data ++ goFmtChars t rest
  | '4' :: rest => (natStr t.minute).data ++ goFmtChars t rest
  | '5' :: rest => (natStr t.second).data ++ goFmtChars t rest
  | '0' :: '1' :: rest => (pad2 t.month).data ++ goFmtChars t rest
  | '0' :: '2' :: rest => (pad2 t.day).data ++ goFmtChars t rest
  | '0' :: '3' :: rest => (pad2 (hour12 t.hour)).data ++ goFmtChars t rest
  | '0' :: '4' :: rest => (pad2 t.minute).data ++ goFmtChars t rest
  | '0' :: '5' :: rest => (pad2 t.second).data ++ goFmtChars t rest
  | '0' :: '6' :: rest => (pad2 (t.year.natAbs % 100)).data ++ goFmtChars t rest
  | '_' :: '2' :: rest =>
      ((if t.day < 10 then " " else "") ++ natStr t.day).data ++ goFmtChars t rest
  | '-' :: '0' :: '7' :: '0' :: '0' :: rest =>
      (goOffset t.offsetMinutes).data ++ goFmtChars t rest
  | '-' :: '7' :: '0' :: '0' :: rest =>
      (goOffset t.offsetMinutes).data ++ goFmtChars t rest
  | 'P' :: 'M' :: rest =>
      (if t.hour < 12 then "AM" else "PM").data ++ goFmtChars t rest
  | 'p' :: 'm' :: rest =>
      (if t.hour < 12 then "am" else "pm").data ++ goFmtChars t rest
  | c :: rest => c :: goFmtChars t rest

/-- Go `t.Format(layout)` over the modelled chunk scanner. -/
def goTimeFormat (t : GoTime) (layout : String) : String :=
  String.mk (goFmtChars t layout.data)

/-- The `timeFmtMap` translation table of src/log.go lines 87-103,
verbatim: strftime-style token character to Go layout fragment.  `"%v"`
marks tokens whose value must be calculated from the instant and
substituted numerically afterwards; `"?"` marks the explicitly
unsupported tokens; characters outside the map yield `none`. -/
def timeFmtMap (r : Char) : Option String :=
  match r with
  | 'a' => some "Mon"
  | 'A' => some "Monday"
  | 'b' => some "Jan"
  | 'B' => some "January"
  | 'C' => some "06"
  | 'd' => some "02"
  | 'D' => some "01/02/06"
  | 'e' => some "_2"
  | 'F' => some "2006-01-02"
  | 'h' => some "Jan"
  | 'H' => some "15"
  | 'I' => some "3"
  | 'k' => some "â€¢15"
  | 'l' => some "_3"
  | 'm' => some "01"
  | 'M' => some "04"
  | 'n' => some "\n"
  | 'p' => some "PM"
  | 'P' => some "pm"
  | 'r' => some "03:04:05 PM"
  | 'R' => some "15:04"
  | 'S' => some "05"
  | 't' => some "\t"
  | 'T' => some "15:04:05"
  | 'y' => some "06"
  | 'Y' => some "2006"
  | 'z' => some "-700"
  | 'Z' => some "MST"
  | '%' => some "%%"
  | 'G' => some "%v"
  | 'g' => some "%v"
  | 'j' => some "%v"
  | 's' => some "%v"
  | 'u' => some "%v"
  | 'V' => some "%v"
  | 'w' => some "%v"
  | 'c' => some "?"
  | 'E' => some "?"
  | 'O' => some "?"
  | 'U' => some "?"
  | 'W' => some "?"
  | 'x' => some "?"
  | 'X' => some "?"
  | '+' => some "?"
  | _ => none

/-- The calculated value `convertTimeFormat` appends to `calcTime` for a
token translated to `"%v"` (src/log.go lines 121-147).  `%u` maps a
Sunday (`Weekday() = 0`) to 7; `%w` appends `Weekday()` unchanged. -/
def calcTokenValue (t : GoTime) (r : Char) : List Int :=
  match r with
  | 'G' => [t.isoYear]
  | 'j' => [t.yearDay]
  | 's' => [t.unix]
  | 'u' => [if t.weekday = 0 then 7 else t.weekday]
  | 'V' => [t.isoWeek]
  | 'w' => [t.weekday]
  | _ => []

/-- The scanning loop of `convertTimeFormat` (src/log.go lines 110-154):
builds the Go layout character list and the ordered list of calculated
values.  Mirrors the source exactly, including two quirks: the `'g'`
branch writes `"%02d"` and skips the `"%v"` write, and the
invalid-token branch writes `"(%<token> is invalid)"` WITHOUT clearing
the directive flag. -/
def ctfScan (t : GoTime) : List Char → Bool → List Char × List Int
  | [], _ => ([], [])
  | r :: rest, isDirective =>
    if !isDirective && r = '%' then ctfScan t rest true
    else if !isDirective then
      let pr := ctfScan t rest false
      (r :: pr.1, pr.2)
    else
      match timeFmtMap r with
      | some val =>
        if val = "%v" then
          if r = 'g' then
            let pr := ctfScan t rest false
            let y := t.isoYear - t.isoYear / 100 * 100
            ("%02d".data ++ pr.1, y :: pr.2)
          else
            let pr := ctfScan t rest false
            (val.data ++ pr.1, calcTokenValue t r ++ pr.2)
        else
          let pr := ctfScan t rest false
          (val.data ++ pr.1, pr.2)
      | none =>
        let pr := ctfScan t rest true
        (("(%" ++ String.mk [r] ++ " is invalid)").data ++ pr.1, pr.2)

/-- Zero-padded decimal for the `fmt.Sprintf` verb `%02d`. -/
def pad2Int (i : Int) : String :=
  if 0 ≤ i ∧ i < 10 then "0" ++ itoa i else itoa i

/-- Model of `fmt.Sprintf` restricted to the verbs `convertTimeFormat`
can produce (`%v` and `%02d` over `int64` arguments, and the `%%`
escape); other text is copied verbatim.  Missing-argument noise mirrors
Go's `%!v(MISSING)` marker and is unreachable from the claims. -/
def sprintfAux : List Char → List Int → List Char
  | [], _ => []
  | '%' :: 'v' :: rest, a :: args => (itoa a).data ++ sprintfAux rest args
  | '%' :: 'v' :: rest, [] => "%!v(MISSING)".data ++ sprintfAux rest []
  | '%' :: '0' :: '2' :: 'd' :: rest, a :: args =>
      (pad2Int a).data ++ sprintfAux rest args
  | '%' :: '0' :: '2' :: 'd' :: rest, [] => "%!d(MISSING)".data ++ sprintfAux rest []
  | '%' :: '%' :: rest, args => '%' :: sprintfAux rest args
  | c :: rest, args => c :: sprintfAux rest args

/-- Go `fmt.Sprintf(s, args...)` over the modelled verb subset. -/
def goSprintf (s : String) (args : List Int) : String :=
  String.mk (sprintfAux s.data args)

/-- `convertTimeFormat` (src/log.go lines 106-165): scan the sub-format,
format the resulting layout with the instant, and, when any calculated
values were collected, substitute them with `Sprintf`. -/
def convertTimeFormat (now : GoTime) (format : String) : String :=
  let pr := ctfScan now format.data false
  let s := goTimeFormat now (String.mk pr.1)
  if pr.2 = [] then s else goSprintf s pr.2

/-- The repository's test instant: `time.Parse("Jan 2, 2006 at 3:04pm
(MST)", "Feb 3, 2013 at 7:54pm (PST)")`.  Go's `time.Parse` does not
know a real offset for the bare abbreviation `PST`, so the constructed
value has wall clock 2013-02-03 19:54:00 with zone offset 0 — which is
why the repository's own tests expect `+0000` and epoch second
1359921240 (`[1359921240 07:54:00 PM] 17` in the custom-format test).
2013-02-03 is a Sunday (weekday 0), year day 34, ISO week 2013-W05. -/
def testTime : GoTime :=
  { year := 2013, month := 2, day := 3, hour := 19, minute := 54,
    second := 0, offsetMinutes := 0, zoneName := "PST",
    unix := 1359921240, weekday := 0, yearDay := 34,
    isoYear := 2013, isoWeek := 5 }

/-- Value of a standard base64 alphabet character, `none` for characters
outside the alphabet (and for the pad character, handled separately). -/
def b64Val (c : Char) : Option Nat :=
  if 'A' ≤ c ∧ c ≤ 'Z' then some (c.toNat - 65)
  else if 'a' ≤ c ∧ c ≤ 'z' then some (c.toNat - 97 + 26)
  else if '0' ≤ c ∧ c ≤ '9' then some (c.toNat - 48 + 52)
  else if c = '+' then some 62
  else if c = '/' then some 63
  else none

/-- Four-character quantum decoding of Go `base64.StdEncoding`: padding
is mandatory, `=` may appear only at the end of the final quantum, and
(like Go's non-strict default) non-zero trailing bits are ignored.
Output bytes are numbers below 256. -/
def b64Groups : List Char → Option (List Nat)
  | [] => some []
  | c0 :: c1 :: c2 :: c3 :: rest =>
    match b64Val c0, b64Val c1 with
    | some v0, some v1 =>
      if c2 = '=' then
        if c3 = '=' ∧ rest = [] then some [v0 * 4 + v1 / 16] else none
      else
        match b64Val c2 with
        | some v2 =>
          if c3 = '=' then
            if rest = [] then some [v0 * 4 + v1 / 16, v1 % 16 * 16 + v2 / 4]
            else none
          else
            match b64Val c3 with
            | some v3 =>
              (b64Groups rest).map fun tail =>
                (v0 * 4 + v1 / 16) :: (v1 % 16 * 16 + v2 / 4) ::
                  (v2 % 4 * 64 + v3) :: tail
            | none => none
        | none => none
    | _, _ => none
  | _ => none

/-- Go `base64.StdEncoding.DecodeString` followed by Go's `string(b)`
conversion: carriage returns and newlines are skipped anywhere in the
input (as Go's decoder does), the remainder must be whole padded quanta,
and each decoded byte is represented as the character with that code
point (faithful for the byte-level colon split the source performs). -/
def base64Decode (s : String) : Option String :=
  (b64Groups (s.data.filter fun c => !(c = '\r' ∨ c = '\n'))).map
    fun bytes => String.mk (bytes.map Char.ofNat)

/-- Read view of an `*http.Request` as the source consumes it: method,
URL path, URL host, protocol string, and `r.Header.Get` as a total
function returning `""` for absent headers (Go's canonical-key lookup is
part of the function's behaviour). -/
structure Request where
  method : String
  urlPath : String
  urlHost : String
  proto : String
  header : String → String

/-- The captured response state of `responseWriter` (src/log.go lines
41-48): recorded status (0 = unset) and total bytes written. -/
structure ResponseWriterState where
  status : Int
  byteCount : Nat

/-- A fresh per-request capture, as `FormatWith`'s middleware constructs
it (`&responseWriter{ResponseWriter: w}`): zero status, zero bytes. -/
def freshRW : ResponseWriterState := { status := 0, byteCount := 0 }

/-- `responseWriter.WriteHeader` (src/log.go lines 51-56): only the first
call changes the recorded status; the call is always forwarded. -/
def rwWriteHeader (s : ResponseWriterState) (i : Int) : ResponseWriterState :=
  if s.status = 0 then { s with status := i } else s

/-- `responseWriter.Write` (src/log.go lines 59-66): an implicit 200 if
no status is set yet, then the byte count grows by the number of bytes
the underlying writer reports; the model assumes the underlying write
succeeds in full (`n = len(p)`), as in the repository's tests. -/
def rwWrite (s : ResponseWriterState) (n : Nat) : ResponseWriterState :=
  let s1 := if s.status = 0 then { s with status := 200 } else s
  { s1 with byteCount := s1.byteCount + n }

/-- One intercepted call on the capture wrapper. -/
inductive WEvent where
  | write (len : Nat)
  | writeHeader (code : Int)
  deriving DecidableEq

/-- Apply one intercepted call. -/
def rwStep (s : ResponseWriterState) : WEvent → ResponseWriterState
  | WEvent.write n => rwWrite s n
  | WEvent.writeHeader c => rwWriteHeader s c

/-- State of a fresh capture after a sequence of intercepted calls. -/
def runEvents (evs : List WEvent) : ResponseWriterState :=
  evs.foldl rwStep freshRW

/-- The inputs a single render reads: the request, the populated capture,
and the instant chosen by `line.withTime` (the configured fixed clock
when present, otherwise the wall-clock sample — the claims all fix the
instant, so it is a plain field here). -/
structure LineInput where
  request : Request
  writer : ResponseWriterState
  time : GoTime

/-- The username computation of `line.username` (src/log.go lines
208-220) as a function of the `Authorization` header value: split on the
first space, base64-decode the second part, split the decoded string on
the first colon, and keep the part before it; `"-"` on any failure. -/
def usernameOf (auth : String) : String :=
  match splitN2 auth ' ' with
  | none => "-"
  | some pr =>
    match base64Decode pr.2 with
    | none => "-"
    | some decoded =>
      match splitN2 decoded ':' with
      | none => "-"
      | some pair => pair.1

/-- Underlying value of `%h` (`line.remoteHostname`, lines 197-205):
the request URL's host, or the loopback literal when empty. -/
def pureHost (inp : LineInput) : String :=
  if inp.request.urlHost = "" then "127.0.0.1" else inp.request.urlHost

/-- Underlying value of `%u` (`line.username`). -/
def pureUser (inp : LineInput) : String :=
  usernameOf (inp.request.header "Authorization")

/-- The fixed layout `flatten` passes to `line.timeFormatted` for a
key-less `%t` (src/log.go line 280). -/
def defaultTimeLayout : String := "[02/01/2006:03:04:05 -0700]"

/-- Underlying value of `%t` without an enclosure key
(`line.timeFormatted` at the fixed layout). -/
def pureTime (inp : LineInput) : String :=
  goTimeFormat inp.time defaultTimeLayout

/-- Underlying value of `%r` (`line.requestLine`, lines 231-236). -/
def pureReq (inp : LineInput) : String :=
  goToUpper inp.request.method ++ " " ++ inp.request.urlPath ++ " " ++
    inp.request.proto

/-- Underlying value of `%s` and `%>s` (`line.status`, lines 239-244). -/
def pureStatus (inp : LineInput) : String := itoa inp.writer.status

/-- Underlying value of `%b` (`line.bytesWritten`, lines 247-252). -/
def pureBytes (inp : LineInput) : String := itoa (inp.writer.byteCount : Int)

/-- The memo fields of the `line` struct (src/log.go line 174): each
directive accessor caches its string in the field of its letter; all
start empty. -/
structure LineMemo where
  h : String
  u : String
  t : String
  r : String
  s : String
  b : String
  D : String

/-- `new(line)`: every cache field empty. -/
def initMemo : LineMemo := ⟨"", "", "", "", "", "", ""⟩

/-- The six memoised directive kinds. -/
inductive MemoKind where
  | host
  | user
  | time
  | req
  | statusK
  | bytes
  deriving DecidableEq

/-- Instrumentation event recorded whenever the render actually computes
an underlying value: a cache miss of a memoised accessor, a
`r.Header.Get` for an enclosure `i`-directive, or a `convertTimeFormat`
call for an enclosure `t`-directive.  The events are emitted exactly at
the source expressions that perform the computation, so their count is
the number of times the source computes the value in one render. -/
inductive REvent where
  | miss : MemoKind → REvent
  | headerGet : String → REvent
  | convertT : String → REvent
  deriving DecidableEq

/-- Occurrences of one event in a trace. -/
def countEvent (e : REvent) : List REvent → Nat
  | [] => 0
  | x :: xs => (if x = e then 1 else 0) + countEvent e xs

/-- `line.remoteHostname`: memoised `%h` accessor. -/
def remoteHostname (inp : LineInput) (ln : LineMemo) :
    String × LineMemo × List REvent :=
  if ln.h = "" then
    (pureHost inp, { ln with h := pureHost inp }, [REvent.miss MemoKind.host])
  else (ln.h, ln, [])

/-- `line.username`: memoised `%u` accessor. -/
def username (inp : LineInput) (ln : LineMemo) :
    String × LineMemo × List REvent :=
  if ln.u = "" then
    (pureUser inp, { ln with u := pureUser inp }, [REvent.miss MemoKind.user])
  else (ln.u, ln, [])

/-- `line.timeFormatted`: memoised `%t` accessor (always called with the
fixed default layout). -/
def timeFormatted (inp : LineInput) (ln : LineMemo) :
    String × LineMemo × List REvent :=
  if ln.t = "" then
    (pureTime inp, { ln with t := pureTime inp }, [REvent.miss MemoKind.time])
  else (ln.t, ln, [])

/-- `line.requestLine`: memoised `%r` accessor. -/
def requestLine (inp : LineInput) (ln : LineMemo) :
    String × LineMemo × List REvent :=
  if ln.r = "" then
    (pureReq inp, { ln with r := pureReq inp }, [REvent.miss MemoKind.req])
  else (ln.r, ln, [])

/-- `line.status`: memoised `%s` / `%>s` accessor. -/
def statusAccessor (inp : LineInput) (ln : LineMemo) :
    String × LineMemo × List REvent :=
  if ln.s = "" then
    (pureStatus inp, { ln with s := pureStatus inp },
      [REvent.miss MemoKind.statusK])
  else (ln.s, ln, [])

/-- `line.bytesWritten`: memoised `%b` accessor. -/
def bytesWritten (inp : LineInput) (ln : LineMemo) :
    String × LineMemo × List REvent :=
  if ln.b = "" then
    (pureBytes inp, { ln with b := pureBytes inp }, [REvent.miss MemoKind.bytes])
  else (ln.b, ln, [])

/-- `line.timeElapsed` (src/log.go lines 255-260): the guard is inverted
(`len(ln.D) > 0`), and since `ln.D` starts empty and is never written
elsewhere, the accessor always returns the empty field unchanged. -/
def timeElapsed (ln : LineMemo) : String × LineMemo × List REvent :=
  (ln.D, ln, [])

/-- The action a directive string selects in `flatten`'s switch
(src/log.go lines 269-299): one case per literal directive, and the
default case's enclosure check `len(s) > 4 && s[:2] == "%{" &&
s[len(s)-2] == '}'` with the final byte choosing header or time
rendering; everything else is dropped. -/
inductive DirAction where
  | lit
  | host
  | ident
  | user
  | timeDefault
  | reqLine
  | statusD
  | bytesW
  | elapsed
  | headerEnc : String → DirAction
  | timeEnc : String → DirAction
  | dropD
  deriving DecidableEq

/-- The enclosure handling of `flatten`'s default case: the length and
shape check on `s`, the extracted key `s[2:len(s)-2]`, and the dispatch
on the final byte. -/
def classifyEnclosure (s : String) : DirAction :=
  if 4 < s.data.length ∧ s.data.take 2 = ['%', '{'] ∧
      s.data.getD (s.data.length - 2) ' ' = '}' then
    if s.data.getLast? = some 'i' then
      DirAction.headerEnc (String.mk ((s.data.drop 2).take (s.data.length - 4)))
    else if s.data.getLast? = some 't' then
      DirAction.timeEnc (String.mk ((s.data.drop 2).take (s.data.length - 4)))
    else DirAction.dropD
  else DirAction.dropD

/-- Classification of a directive string, mirroring `flatten`'s switch
(a Go string switch is a chain of equality tests). -/
def classify (s : String) : DirAction :=
  if s = "" then DirAction.lit
  else if s = "%h" then DirAction.host
  else if s = "%l" then DirAction.ident
  else if s = "%u" then DirAction.user
  else if s = "%t" then DirAction.timeDefault
  else if s = "%r" then DirAction.reqLine
  else if s = "%s" then DirAction.statusD
  else if s = "%>s" then DirAction.statusD
  else if s = "%b" then DirAction.bytesW
  else if s = "%D" then DirAction.elapsed
  else classifyEnclosure s

/-- One iteration of `flatten`'s loop body on the pair
`(directives[i], betweens[i])`: the emitted piece, the updated memo
state, and the instrumentation events. -/
def emitStep (inp : LineInput) (ln : LineMemo) (p : String × String) :
    String × LineMemo × List REvent :=
  match classify p.1 with
  | DirAction.lit => (p.2, ln, [])
  | DirAction.host => remoteHostname inp ln
  | DirAction.ident => ("-", ln, [])
  | DirAction.user => username inp ln
  | DirAction.timeDefault => timeFormatted inp ln
  | DirAction.reqLine => requestLine inp ln
  | DirAction.statusD => statusAccessor inp ln
  | DirAction.bytesW => bytesWritten inp ln
  | DirAction.elapsed => timeElapsed ln
  | DirAction.headerEnc label =>
      (inp.request.header label, ln, [REvent.headerGet label])
  | DirAction.timeEnc label =>
      (convertTimeFormat inp.time label, ln, [REvent.convertT label])
  | DirAction.dropD => ("", ln, [])

/-- `flatten`'s loop over the compiled pair list, threading the memo
state and collecting the per-slot pieces and the computation events. -/
def flattenExec (inp : LineInput) :
    List (String × String) → LineMemo → List String × List REvent
  | [], _ => ([], [])
  | p :: ps, ln =>
    ((emitStep inp ln p).1 :: (flattenExec inp ps (emitStep inp ln p).2.1).1,
      (emitStep inp ln p).2.2 ++ (flattenExec inp ps (emitStep inp ln p).2.1).2)

/-- Per-slot rendered pieces of one render. -/
def flattenPieces (inp : LineInput) (ps : List (String × String)) :
    List String :=
  (flattenExec inp ps initMemo).1

/-- Computation events of one render. -/
def flattenEvents (inp : LineInput) (ps : List (String × String)) :
    List REvent :=
  (flattenExec inp ps initMemo).2

/-- `flatten` (src/log.go lines 263-303): the rendered log line (before
the trailing newline `Fprintln` adds). -/
def flatten (ps : List (String × String)) (inp : LineInput) : String :=
  strJoin (flattenPieces inp ps)

/-- The Apache Common Log preset (src/log.go line 75). -/
def ApacheCommonLogFormat : String := "%h %l %u %t \"%r\" %>s %b"

/-- Scanner state of `FormatWith`'s compile loop (src/log.go lines
324-370): the directive/enclosure flags, the two accumulation buffers,
which buffer `cBuf` points at (`true` = the directive buffer `aBuf`),
and the lockstep list of flushed `(directives[i], betweens[i])` pairs. -/
structure FWState where
  isDirective : Bool
  isEnclosure : Bool
  aBuf : List Char
  bBuf : List Char
  current : Bool
  acc : List (String × String)

/-- `cBuf.WriteRune(r)`. -/
def fwWrite (st : FWState) (r : Char) : FWState :=
  if st.current then { st with aBuf := st.aBuf ++ [r] }
  else { st with bBuf := st.bBuf ++ [r] }

/-- The paired append-and-reset of both buffers. -/
def fwFlush (st : FWState) : FWState :=
  { st with
    acc := st.acc ++ [(String.mk st.aBuf, String.mk st.bBuf)],
    aBuf := [], bBuf := [] }

/-- One iteration of `FormatWith`'s scan at rune `r`, position `i`. -/
def fwStep (st : FWState) (r : Char) (i : Nat) : FWState :=
  if r = '%' then
    if st.isDirective then fwWrite st r
    else
      let st1 := { st with isDirective := true }
      let st2 := if i ≠ 0 then fwFlush st1 else st1
      fwWrite { st2 with current := true } r
  else if r = '{' then fwWrite { st with isEnclosure := true } r
  else if r = '}' then fwWrite { st with isEnclosure := false } r
  else if r = '>' then fwWrite st r
  else if st.isDirective ∧ ¬st.isEnclosure ∧ ¬goIsLetter r then
    let st1 := { st with isDirective := false, isEnclosure := false }
    let st2 := if i ≠ 0 then fwFlush st1 else st1
    fwWrite { st2 with current := false } r
  else fwWrite st r

/-- The scan loop over the format's runes with their positions. -/
def fwLoop : List Char → Nat → FWState → FWState
  | [], _, st => st
  | r :: rest, i, st => fwLoop rest (i + 1) (fwStep st r i)

/-- The compile phase of `FormatWith` (src/log.go lines 318-372): scan
the format and flush once more at the end, yielding the lockstep
`(directive, between)` pairs that `flatten` consumes.  (The remaining
middleware plumbing — wrapping the handler and `Fprintln`-ing
`flatten`'s result — is I/O glue outside the rendered-line semantics.) -/
def formatWithCompile (format : String) : List (String × String) :=
  (fwFlush (fwLoop format.data 0
    { isDirective := false, isEnclosure := false, aBuf := [], bBuf := [],
      current := false, acc := [] })).acc

/-- The full rendered line for a format string and render inputs. -/
def renderFormat (format : String) (inp : LineInput) : String :=
  flatten (formatWithCompile format) inp

/-- The request of the repository's `TestLoggingMiddleware`: a GET to
`/testing` with protocol HTTP/1.1, empty URL host, and no headers. -/
def testRequest : Request :=
  { method := "GET", urlPath := "/testing", urlHost := "", proto := "HTTP/1.1",
    header := fun _ => "" }

/-- Render input of claim C1: the test request, a capture with recorded
status 200 and 17 bytes written, and the fixed test instant. -/
def c1Input : LineInput :=
  { request := testRequest,
    writer := { status := 200, byteCount := 17 },
    time := testTime }

/-- The value a slot contributes to the line as a pure function of the
render inputs: `betweens[i]` for an empty directive, the underlying
directive value otherwise.  The memoisation-transparency theorem below
shows `flatten` emits exactly these. -/
def pureEmit (inp : LineInput) (p : String × String) : String :=
  match classify p.1 with
  | DirAction.lit => p.2
  | DirAction.host => pureHost inp
  | DirAction.ident => "-"
  | DirAction.user => pureUser inp
  | DirAction.timeDefault => pureTime inp
  | DirAction.reqLine => pureReq inp
  | DirAction.statusD => pureStatus inp
  | DirAction.bytesW => pureBytes inp
  | DirAction.elapsed => ""
  | DirAction.headerEnc label => inp.request.header label
  | DirAction.timeEnc label => convertTimeFormat inp.time label
  | DirAction.dropD => ""

/-- Invariant of the memo state during a render: every cache field is
either still empty or holds exactly its underlying value, and the dead
`%D` field is empty. -/
def Coherent (inp : LineInput) (ln : LineMemo) : Prop :=
  (ln.h = "" ∨ ln.h = pureHost inp) ∧
  (ln.u = "" ∨ ln.u = pureUser inp) ∧
  (ln.t = "" ∨ ln.t = pureTime inp) ∧
  (ln.r = "" ∨ ln.r = pureReq inp) ∧
  (ln.s = "" ∨ ln.s = pureStatus inp) ∧
  (ln.b = "" ∨ ln.b = pureBytes inp) ∧
  ln.D = ""

/-- The cache field a memoised kind lives in. -/
def memoField : MemoKind → LineMemo → String
  | MemoKind.host, ln => ln.h
  | MemoKind.user, ln => ln.u
  | MemoKind.time, ln => ln.t
  | MemoKind.req, ln => ln.r
  | MemoKind.statusK, ln => ln.s
  | MemoKind.bytes, ln => ln.b

/-- The underlying value of a memoised kind. -/
def pureKind : MemoKind → LineInput → String
  | MemoKind.host, inp => pureHost inp
  | MemoKind.user, inp => pureUser inp
  | MemoKind.time, inp => pureTime inp
  | MemoKind.req, inp => pureReq inp
  | MemoKind.statusK, inp => pureStatus inp
  | MemoKind.bytes, inp => pureBytes inp

/-- The directive action that reads a memoised kind's cache. -/
def dirOf : MemoKind → DirAction
  | MemoKind.host => DirAction.host
  | MemoKind.user => DirAction.user
  | MemoKind.time => DirAction.timeDefault
  | MemoKind.req => DirAction.reqLine
  | MemoKind.statusK => DirAction.statusD
  | MemoKind.bytes => DirAction.bytesW

/-- State of a fresh capture after a sequence of plain body writes. -/
def runWrites (ls : List Nat) : ResponseWriterState :=
  runEvents (ls.map WEvent.write)

/-- The default `%t` pattern as claim C5 words it (spec section 6:
`[dd/MM/yyyy:HH:mm:ss ±hhmm]` with a 24-HOUR zero-padded hour).  This
definition follows the spec's words, for comparison against the
source-derived renderer; it is NOT what the source computes. -/
def specDefaultTimestamp (t : GoTime) : String :=
  "[" ++ pad2 t.day ++ "/" ++ pad2 t.month ++ "/" ++ pad4Int t.year ++ ":" ++
    pad2 t.hour ++ ":" ++ pad2 t.minute ++ ":" ++ pad2 t.second ++ " " ++
    goOffset t.offsetMinutes ++ "]"

/-- Render input whose request carries the `Authorization` header
`B OnB3` — the payload decodes to `:pw`, whose part before the first
colon is the empty string, so the `%u` cache never fills. -/
def emptyUserInput : LineInput :=
  { request :=
      { method := "GET", urlPath := "/testing", urlHost := "",
        proto := "HTTP/1.1",
        header := fun k => if k = "Authorization" then "B OnB3" else "" },
    writer := { status := 200, byteCount := 17 },
    time := testTime }

/-- Render input whose request carries the header `a: v`, for the
repeated-enclosure-directive counterexample. -/
def headerAInput : LineInput :=
  { request :=
      { method := "GET", urlPath := "/testing", urlHost := "",
        proto := "HTTP/1.1",
        header := fun k => if k = "a" then "v" else "" },
    writer := { status := 200, byteCount := 17 },
    time := testTime }

/-- Render input whose request carries the `Authorization` header
`B LTo=` — a non-Basic scheme whose payload decodes to `-:`, so the
decoded user part before the colon is itself the literal `-`. -/
def dashUserInput : LineInput :=
  { request :=
      { method := "GET", urlPath := "/testing", urlHost := "",
        proto := "HTTP/1.1",
        header := fun k => if k = "Authorization" then "B LTo=" else "" },
    writer := { status := 200, byteCount := 17 },
    time := testTime }

lemma cache_read (cache pureV : String) (hc : cache = "" ∨ cache = pureV) :
    (if cache = "" then pureV else cache) = pureV := by
  rcases hc with h | h
  · rw [if_pos h]
  · by_cases h2 : cache = ""
    · rw [if_pos h2]
    · rw [if_neg h2]; exact h

lemma remoteHostname_fst (inp : LineInput) (ln : LineMemo) :
    (remoteHostname inp ln).1 = if ln.h = "" then pureHost inp else ln.h := by
  unfold remoteHostname; split <;> rfl

lemma remoteHostname_memo (inp : LineInput) (ln : LineMemo) :
    (remoteHostname inp ln).2.1 =
      if ln.h = "" then { ln with h := pureHost inp } else ln := by
  unfold remoteHostname; split <;> rfl

lemma remoteHostname_events (inp : LineInput) (ln : LineMemo) :
    (remoteHostname inp ln).2.2 =
      if ln.h = "" then [REvent.miss MemoKind.host] else [] := by
  unfold remoteHostname; split <;> rfl

lemma username_fst (inp : LineInput) (ln : LineMemo) :
    (username inp ln).1 = if ln.u = "" then pureUser inp else ln.u := by
  unfold username; split <;> rfl

lemma username_memo (inp : LineInput) (ln : LineMemo) :
    (username inp ln).2.1 =
      if ln.u = "" then { ln with u := pureUser inp } else ln := by
  unfold username; split <;> rfl

lemma username_events (inp : LineInput) (ln : LineMemo) :
    (username inp ln).2.2 =
      if ln.u = "" then [REvent.miss MemoKind.user] else [] := by
  unfold username; split <;> rfl

lemma timeFormatted_fst (inp : LineInput) (ln : LineMemo) :
    (timeFormatted inp ln).1 = if ln.t = "" then pureTime inp else ln.t := by
  unfold timeFormatted; split <;> rfl

lemma timeFormatted_memo (inp : LineInput) (ln : LineMemo) :
    (timeFormatted inp ln).2.1 =
      if ln.t = "" then { ln with t := pureTime inp } else ln := by
  unfold timeFormatted; split <;> rfl

lemma timeFormatted_events (inp : LineInput) (ln : LineMemo) :
    (timeFormatted inp ln).2.2 =
      if ln.t = "" then [REvent.miss MemoKind.time] else [] := by
  unfold timeFormatted; split <;> rfl

lemma requestLine_fst (inp : LineInput) (ln : LineMemo) :
    (requestLine inp ln).1 = if ln.r = "" then pureReq inp else ln.r := by
  unfold requestLine; split <;> rfl

lemma requestLine_memo (inp : LineInput) (ln : LineMemo) :
    (requestLine inp ln).2.1 =
      if ln.r = "" then { ln with r := pureReq inp } else ln := by
  unfold requestLine; split <;> rfl

lemma requestLine_events (inp : LineInput) (ln : LineMemo) :
    (requestLine inp ln).2.2 =
      if ln.r = "" then [REvent.miss MemoKind.req] else [] := by
  unfold requestLine; split <;> rfl

lemma statusAccessor_fst (inp : LineInput) (ln : LineMemo) :
    (statusAccessor inp ln).1 = if ln.s = "" then pureStatus inp else ln.s := by
  unfold statusAccessor; split <;> rfl

lemma statusAccessor_memo (inp : LineInput) (ln : LineMemo) :
    (statusAccessor inp ln).2.1 =
      if ln.s = "" then { ln with s := pureStatus inp } else ln := by
  unfold statusAccessor; split <;> rfl

lemma statusAccessor_events (inp : LineInput) (ln : LineMemo) :
    (statusAccessor inp ln).2.2 =
      if ln.s = "" then [REvent.miss MemoKind.statusK] else [] := by
  unfold statusAccessor; split <;> rfl

lemma bytesWritten_fst (inp : LineInput) (ln : LineMemo) :
    (bytesWritten inp ln).1 = if ln.b = "" then pureBytes inp else ln.b := by
  unfold bytesWritten; split <;> rfl

lemma bytesWritten_memo (inp : LineInput) (ln : LineMemo) :
    (bytesWritten inp ln).2.1 =
      if ln.b = "" then { ln with b := pureBytes inp } else ln := by
  unfold bytesWritten; split <;> rfl

lemma bytesWritten_events (inp : LineInput) (ln : LineMemo) :
    (bytesWritten inp ln).2.2 =
      if ln.b = "" then [REvent.miss MemoKind.bytes] else [] := by
  unfold bytesWritten; split <;> rfl

lemma coherent_init (inp : LineInput) : Coherent inp initMemo :=
  ⟨Or.inl rfl, Or.inl rfl, Or.inl rfl, Or.inl rfl, Or.inl rfl, Or.inl rfl, rfl⟩

lemma coherent_set_h (inp : LineInput) (ln : LineMemo) (hc : Coherent inp ln) :
    Coherent inp (if ln.h = "" then { ln with h := pureHost inp } else ln) := by
  by_cases h2 : ln.h = ""
  · rw [if_pos h2]
    obtain ⟨_, hu, ht, hr, hs, hb, hD⟩ := hc
    exact ⟨Or.inr rfl, hu, ht, hr, hs, hb, hD⟩
  · rw [if_neg h2]; exact hc

lemma coherent_set_u (inp : LineInput) (ln : LineMemo) (hc : Coherent inp ln) :
    Coherent inp (if ln.u = "" then { ln with u := pureUser inp } else ln) := by
  by_cases h2 : ln.u = ""
  · rw [if_pos h2]
    obtain ⟨hh, _, ht, hr, hs, hb, hD⟩ := hc
    exact ⟨hh, Or.inr rfl, ht, hr, hs, hb, hD⟩
  · rw [if_neg h2]; exact hc

lemma coherent_set_t (inp : LineInput) (ln : LineMemo) (hc : Coherent inp ln) :
    Coherent inp (if ln.t = "" then { ln with t := pureTime inp } else ln) := by
  by_cases h2 : ln.t = ""
  · rw [if_pos h2]
    obtain ⟨hh, hu, _, hr, hs, hb, hD⟩ := hc
    exact ⟨hh, hu, Or.inr rfl, hr, hs, hb, hD⟩
  · rw [if_neg h2]; exact hc

lemma coherent_set_r (inp : LineInput) (ln : LineMemo) (hc : Coherent inp ln) :
    Coherent inp (if ln.r = "" then { ln with r := pureReq inp } else ln) := by
  by_cases h2 : ln.r = ""
  · rw [if_pos h2]
    obtain ⟨hh, hu, ht, _, hs, hb, hD⟩ := hc
    exact ⟨hh, hu, ht, Or.inr rfl, hs, hb, hD⟩
  · rw [if_neg h2]; exact hc

lemma coherent_set_s (inp : LineInput) (ln : LineMemo) (hc : Coherent inp ln) :
    Coherent inp (if ln.s = "" then { ln with s := pureStatus inp } else ln) := by
  by_cases h2 : ln.s = ""
  · rw [if_pos h2]
    obtain ⟨hh, hu, ht, hr, _, hb, hD⟩ := hc
    exact ⟨hh, hu, ht, hr, Or.inr rfl, hb, hD⟩
  · rw [if_neg h2]; exact hc

lemma coherent_set_b (inp : LineInput) (ln : LineMemo) (hc : Coherent inp ln) :
    Coherent inp (if ln.b = "" then { ln with b := pureBytes inp } else ln) := by
  by_cases h2 : ln.b = ""
  · rw [if_pos h2]
    obtain ⟨hh, hu, ht, hr, hs, _, hD⟩ := hc
    exact ⟨hh, hu, ht, hr, hs, Or.inr rfl, hD⟩
  · rw [if_neg h2]; exact hc

lemma emitStep_piece (inp : LineInput) (ln : LineMemo) (p : String × String)
    (hc : Coherent inp ln) : (emitStep inp ln p).1 = pureEmit inp p := by
  obtain ⟨hh, hu, ht, hr, hs, hb, hD⟩ := hc
  unfold emitStep pureEmit
  cases hcl : classify p.1 <;> simp only
  case host => rw [remoteHostname_fst]; exact cache_read _ _ hh
  case user => rw [username_fst]; exact cache_read _ _ hu
  case timeDefault => rw [timeFormatted_fst]; exact cache_read _ _ ht
  case reqLine => rw [requestLine_fst]; exact cache_read _ _ hr
  case statusD => rw [statusAccessor_fst]; exact cache_read _ _ hs
  case bytesW => rw [bytesWritten_fst]; exact cache_read _ _ hb
  case elapsed => exact hD

lemma emitStep_coherent (inp : LineInput) (ln : LineMemo) (p : String × String)
    (hc : Coherent inp ln) : Coherent inp (emitStep inp ln p).2.1 := by
  unfold emitStep
  cases hcl : classify p.1 <;> simp only
  case host => rw [remoteHostname_memo]; exact coherent_set_h inp ln hc
  case user => rw [username_memo]; exact coherent_set_u inp ln hc
  case timeDefault => rw [timeFormatted_memo]; exact coherent_set_t inp ln hc
  case reqLine => rw [requestLine_memo]; exact coherent_set_r inp ln hc
  case statusD => rw [statusAccessor_memo]; exact coherent_set_s inp ln hc
  case bytesW => rw [bytesWritten_memo]; exact coherent_set_b inp ln hc
  all_goals exact hc

lemma flattenExec_pieces (inp : LineInput) (ps : List (String × String)) :
    ∀ ln, Coherent inp ln →
      (flattenExec inp ps ln).1 = ps.map (pureEmit inp) := by
  induction ps with
  | nil => intro ln _; rfl
  | cons p ps ih =>
    intro ln hc
    show (emitStep inp ln p).1 :: (flattenExec inp ps (emitStep inp ln p).2.1).1 =
      pureEmit inp p :: ps.map (pureEmit inp)
    rw [emitStep_piece inp ln p hc, ih _ (emitStep_coherent inp ln p hc)]

lemma flatten_transparent (inp : LineInput) (ps : List (String × String)) :
    flattenPieces inp ps = ps.map (pureEmit inp) :=
  flattenExec_pieces inp ps initMemo (coherent_init inp)

lemma countEvent_append (e : REvent) (a b : List REvent) :
    countEvent e (a ++ b) = countEvent e a + countEvent e b := by
  induction a with
  | nil => simp [countEvent]
  | cons x xs ih => simp [countEvent, ih]; omega

lemma memoField_init (k : MemoKind) : memoField k initMemo = "" := by
  cases k <;> rfl

lemma emitStep_field (inp : LineInput) (ln : LineMemo) (p : String × String)
    (k : MemoKind) :
    memoField k (emitStep inp ln p).2.1 =
      if classify p.1 = dirOf k ∧ memoField k ln = "" then pureKind k inp
      else memoField k ln := by
  unfold emitStep
  cases k <;> cases hcl : classify p.1 <;>
    simp only [hcl, remoteHostname_memo, username_memo, timeFormatted_memo,
      requestLine_memo, statusAccessor_memo, bytesWritten_memo, timeElapsed,
      memoField, dirOf, pureKind] <;>
    split <;> simp_all [memoField]

lemma emitStep_countMiss (inp : LineInput) (ln : LineMemo) (p : String × String)
    (k : MemoKind) :
    countEvent (REvent.miss k) (emitStep inp ln p).2.2 =
      if classify p.1 = dirOf k ∧ memoField k ln = "" then 1 else 0 := by
  unfold emitStep
  cases k <;> cases hcl : classify p.1 <;>
    simp only [hcl, remoteHostname_events, username_events, timeFormatted_events,
      requestLine_events, statusAccessor_events, bytesWritten_events, timeElapsed,
      memoField, dirOf] <;>
    split <;> simp_all [countEvent]

lemma flattenExec_countBound (inp : LineInput) (k : MemoKind)
    (hpk : pureKind k inp ≠ "") (ps : List (String × String)) :
    ∀ ln, memoField k ln = "" ∨ memoField k ln = pureKind k inp →
      countEvent (REvent.miss k) (flattenExec inp ps ln).2 ≤
        if memoField k ln = "" then 1 else 0 := by
  induction ps with
  | nil => intro ln _; simp [flattenExec, countEvent]
  | cons p ps ih =>
    intro ln hinv
    show countEvent (REvent.miss k)
        ((emitStep inp ln p).2.2 ++ (flattenExec inp ps (emitStep inp ln p).2.1).2) ≤ _
    rw [countEvent_append, emitStep_countMiss]
    have hfield := emitStep_field inp ln p k
    by_cases hc : classify p.1 = dirOf k ∧ memoField k ln = ""
    · rw [if_pos hc]
      have h2 : memoField k (emitStep inp ln p).2.1 = pureKind k inp := by
        rw [hfield, if_pos hc]
      have hrest := ih (emitStep inp ln p).2.1 (Or.inr h2)
      rw [h2, if_neg hpk] at hrest
      rw [if_pos hc.2]
      omega
    · rw [if_neg hc]
      have h2 : memoField k (emitStep inp ln p).2.1 = memoField k ln := by
        rw [hfield, if_neg hc]
      have hrest := ih (emitStep inp ln p).2.1 (by rw [h2]; exact hinv)
      rw [h2] at hrest
      omega

lemma rwWrite_byteCount (s : ResponseWriterState) (n : Nat) :
    (rwWrite s n).byteCount = s.byteCount + n := by
  unfold rwWrite; split <;> rfl

lemma rwWrite_status_of_zero (s : ResponseWriterState) (n : Nat)
    (h : s.status = 0) : (rwWrite s n).status = 200 := by
  unfold rwWrite; rw [if_pos h]

lemma rwStep_status_keep (s : ResponseWriterState) (e : WEvent)
    (h : s.status ≠ 0) : (rwStep s e).status = s.status := by
  cases e with
  | write n => show (rwWrite s n).status = s.status; unfold rwWrite; rw [if_neg h]
  | writeHeader c =>
      show (rwWriteHeader s c).status = s.status
      unfold rwWriteHeader; rw [if_neg h]

lemma foldl_status_keep (evs : List WEvent) :
    ∀ s : ResponseWriterState, s.status ≠ 0 →
      (evs.foldl rwStep s).status = s.status := by
  induction evs with
  | nil => intro s _; rfl
  | cons e evs ih =>
    intro s h
    show ((evs.foldl rwStep (rwStep s e))).status = s.status
    rw [ih (rwStep s e) (by rw [rwStep_status_keep s e h]; exact h),
      rwStep_status_keep s e h]

lemma foldl_write_byteCount (ls : List Nat) :
    ∀ s : ResponseWriterState,
      ((ls.map WEvent.write).foldl rwStep s).byteCount = s.byteCount + ls.sum := by
  induction ls with
  | nil => intro s; simp
  | cons n ls ih =>
    intro s
    show ((ls.map WEvent.write).foldl rwStep (rwStep s (WEvent.write n))).byteCount = _
    rw [ih]
    show (rwWrite s n).byteCount + ls.sum = _
    rw [rwWrite_byteCount]
    simp
    omega

lemma splitFirst_no_sep (sep : Char) (l : List Char)
    (h : ∀ c ∈ l, c ≠ sep) : splitFirst sep l = none := by
  induction l with
  | nil => rfl
  | cons c cs ih =>
    show (if c = sep then _ else (splitFirst sep cs).map _) = none
    rw [if_neg (h c (List.mem_cons_self c cs)),
      ih (fun x hx => h x (List.mem_cons_of_mem c hx))]
    rfl

lemma splitFirst_append (sep : Char) (l1 l2 : List Char)
    (h : ∀ c ∈ l1, c ≠ sep) :
    splitFirst sep (l1 ++ sep :: l2) = some (l1, l2) := by
  induction l1 with
  | nil => show (if sep = sep then some ([], l2) else _) = _; rw [if_pos rfl]
  | cons c cs ih =>
    show (if c = sep then _ else (splitFirst sep (cs ++ sep :: l2)).map _) = _
    rw [if_neg (h c (List.mem_cons_self c cs)),
      ih (fun x hx => h x (List.mem_cons_of_mem c hx))]
    rfl

lemma classifyEnclosure_ne_lit (s : String) :
    classifyEnclosure s ≠ DirAction.lit := by
  intro hcon
  unfold classifyEnclosure at hcon
  by_cases h1 : 4 < s.data.length ∧ s.data.take 2 = ['%', '{'] ∧
      s.data.getD (s.data.length - 2) ' ' = '}'
  · rw [if_pos h1] at hcon
    by_cases h2 : s.data.getLast? = some 'i'
    · rw [if_pos h2] at hcon; exact DirAction.noConfusion hcon
    · rw [if_neg h2] at hcon
      by_cases h3 : s.data.getLast? = some 't'
      · rw [if_pos h3] at hcon; exact DirAction.noConfusion hcon
      · rw [if_neg h3] at hcon; exact DirAction.noConfusion hcon
  · rw [if_neg h1] at hcon; exact DirAction.noConfusion hcon

lemma classify_ne_lit (d : String) (h0 : d ≠ "") :
    classify d ≠ DirAction.lit := by
  intro hcon
  unfold classify at hcon
  rw [if_neg h0] at hcon
  by_cases h1 : d = "%h"
  · rw [if_pos h1] at hcon; exact DirAction.noConfusion hcon
  · rw [if_neg h1] at hcon
    by_cases h2 : d = "%l"
    · rw [if_pos h2] at hcon; exact DirAction.noConfusion hcon
    · rw [if_neg h2] at hcon
      by_cases h3 : d = "%u"
      · rw [if_pos h3] at hcon; exact DirAction.noConfusion hcon
      · rw [if_neg h3] at hcon
        by_cases h4 : d = "%t"
        · rw [if_pos h4] at hcon; exact DirAction.noConfusion hcon
        · rw [if_neg h4] at hcon
          by_cases h5 : d = "%r"
          · rw [if_pos h5] at hcon; exact DirAction.noConfusion hcon
          · rw [if_neg h5] at hcon
            by_cases h6 : d = "%s"
            · rw [if_pos h6] at hcon; exact DirAction.noConfusion hcon
            · rw [if_neg h6] at hcon
              by_cases h7 : d = "%>s"
              · rw [if_pos h7] at hcon; exact DirAction.noConfusion hcon
              · rw [if_neg h7] at hcon
                by_cases h8 : d = "%b"
                · rw [if_pos h8] at hcon; exact DirAction.noConfusion hcon
                · rw [if_neg h8] at hcon
                  by_cases h9 : d = "%D"
                  · rw [if_pos h9] at hcon; exact DirAction.noConfusion hcon
                  · rw [if_neg h9] at hcon
                    exact classifyEnclosure_ne_lit d hcon

lemma pureEmit_between_irrelevant (inp : LineInput) (d bi bj : String)
    (hd : d ≠ "") : pureEmit inp (d, bi) = pureEmit inp (d, bj) := by
  unfold pureEmit
  cases hcl : classify d <;> simp only
  case lit => exact absurd hcl (classify_ne_lit d hd)

lemma string_append_empty (s : String) : s ++ "" = s := by
  cases s with
  | mk d => show String.mk (d ++ []) = String.mk d; rw [List.append_nil]

/-- Validation against the repository's own custom-format test
(`TestLoggingMiddlewareCustom`): the nested sub-format `%s %r` at the
test instant renders `1359921240 07:54:00 PM`, the value the Go test
expects. -/
lemma convertTimeFormat_matches_repo_test :
    convertTimeFormat testTime "%s %r" = "1359921240 07:54:00 PM" := by decide

/-- The compiled program of the Common preset: thirteen lockstep pairs,
each either a directive with empty between-text or an empty directive
carrying the literal separator. -/
lemma formatWithCompile_common :
    formatWithCompile ApacheCommonLogFormat =
      [("%h", ""), ("", " "), ("%l", ""), ("", " "), ("%u", ""), ("", " "),
       ("%t", ""), ("", " \""), ("%r", ""), ("", "\" "), ("%>s", ""),
       ("", " "), ("%b", "")] := by decide

/-- C1: compiling the Common preset and rendering a GET to `/testing`
(protocol HTTP/1.1, no Authorization header) against a capture with
recorded status 200 and 17 bytes written, at the fixed test instant (the
value Go's `time.Parse` actually builds for `Feb 3, 2013 at 7:54pm
(PST)`: wall clock 2013-02-03 19:54:00, offset +0000), produces exactly
the expected Common Log line. -/
theorem claim_C1 :
    renderFormat ApacheCommonLogFormat c1Input =
      "127.0.0.1 - - [03/02/2013:07:54:00 +0000] \"GET /testing HTTP/1.1\" 200 17" := by
  decide

/-- C2: on a fresh capture receiving only body writes of lengths
`ls`, the recorded status is 200 after every non-empty prefix (the first
write fixes it implicitly), and the final byte count is the sum of the
lengths. -/
theorem claim_C2 (ls : List Nat) (h : ls ≠ []) :
    (∀ k, 1 ≤ k → (runWrites (ls.take k)).status = 200) ∧
    (runWrites ls).byteCount = ls.sum := by
  obtain ⟨n, tl, rfl⟩ := List.exists_cons_of_ne_nil h
  have h200 : (rwStep freshRW (WEvent.write n)).status = 200 :=
    rwWrite_status_of_zero freshRW n rfl
  constructor
  · intro k hk
    obtain ⟨k', rfl⟩ : ∃ k', k = k' + 1 := ⟨k - 1, by omega⟩
    rw [List.take_succ_cons]
    show (((tl.take k').map WEvent.write).foldl rwStep
      (rwStep freshRW (WEvent.write n))).status = 200
    rw [foldl_status_keep ((tl.take k').map WEvent.write)
      (rwStep freshRW (WEvent.write n)) (by rw [h200]; omega), h200]
  · show (((n :: tl).map WEvent.write).foldl rwStep freshRW).byteCount = _
    rw [foldl_write_byteCount]
    exact Nat.zero_add _

/-- C2 witness: two writes of 5 and 12 bytes give status 200 from the
first write on and a byte count of 17. -/
theorem claim_C2_witness :
    (runWrites ([5, 12].take 1)).status = 200 ∧
    (runWrites [5, 12]).byteCount = 17 := by
  have h := claim_C2 [5, 12] (by decide)
  exact ⟨h.1 1 (by decide), h.2.trans (by decide)⟩

/-- C3: on a fresh capture, a first set-status call with a (non-zero,
i.e. actual HTTP) code `c1` fixes the recorded status at `c1` whatever
intercepted calls follow, and a `%s` slot then renders the decimal of
`c1`. -/
theorem claim_C3 (c1 : Int) (hc1 : c1 ≠ 0) (rest : List WEvent)
    (req : Request) (t : GoTime) :
    (runEvents (WEvent.writeHeader c1 :: rest)).status = c1 ∧
    flatten [("%s", "")]
      { request := req, writer := runEvents (WEvent.writeHeader c1 :: rest),
        time := t } = itoa c1 := by
  have hwh : (rwStep freshRW (WEvent.writeHeader c1)).status = c1 := by
    show (rwWriteHeader freshRW c1).status = c1
    unfold rwWriteHeader freshRW
    rw [if_pos rfl]
  have h1 : (runEvents (WEvent.writeHeader c1 :: rest)).status = c1 := by
    show (rest.foldl rwStep (rwStep freshRW (WEvent.writeHeader c1))).status = c1
    rw [foldl_status_keep rest _ (by rw [hwh]; exact hc1), hwh]
  refine ⟨h1, ?_⟩
  show strJoin (flattenPieces _ [("%s", "")]) = itoa c1
  rw [flatten_transparent]
  show pureStatus _ ++ "" = itoa c1
  rw [string_append_empty]
  show itoa (runEvents (WEvent.writeHeader c1 :: rest)).status = itoa c1
  rw [h1]

/-- C3 witness: set-status 301 then 404 then a write records 301, and
`%s` renders `301`. -/
theorem claim_C3_witness :
    (runEvents [WEvent.writeHeader 301, WEvent.writeHeader 404,
      WEvent.write 3]).status = 301 ∧
    flatten [("%s", "")]
      { request := testRequest,
        writer := runEvents [WEvent.writeHeader 301, WEvent.writeHeader 404,
          WEvent.write 3],
        time := testTime } = itoa 301 :=
  claim_C3 301 (by decide) [WEvent.writeHeader 404, WEvent.write 3]
    testRequest testTime

/-- C8: the code drops `%%` instead of rendering a literal percent.
`FormatWith` parses `%%` into the single directive string `%%` (the
in-directive `%` branch at src/log.go lines 333-335 just appends the
rune), but `flatten`'s switch has no `"%%"` case and the default
enclosure check fails on a two-byte string, so the slot renders nothing:
`%%` alone renders the empty string, and `x%% y` renders `x y`. -/
theorem claim_C8_bug :
    formatWithCompile "%%" = [("%%", "")] ∧
    renderFormat "%%" c1Input = "" ∧
    renderFormat "%%" c1Input ≠ "%" ∧
    renderFormat "x%% y" c1Input = "x y" := by
  decide

/-- C9: in any compiled program, a `%s` slot and a `%>s` slot render the
identical status string within one render — both emit exactly
`strconv.Itoa` of the capture's status; the `>` modifier has no
semantic effect. -/
theorem claim_C9 (ps : List (String × String)) (inp : LineInput) (i j : Nat)
    (bi bj : String) (hi : ps[i]? = some ("%s", bi))
    (hj : ps[j]? = some ("%>s", bj)) :
    (flattenPieces inp ps)[i]? = some (pureStatus inp) ∧
    (flattenPieces inp ps)[j]? = some (pureStatus inp) := by
  rw [flatten_transparent]
  constructor
  · rw [List.getElem?_map, hi]; rfl
  · rw [List.getElem?_map, hj]; rfl

/-- C9 witness: in the compiled program of `%s x %>s` both status slots
render `200` for a capture with status 200. -/
theorem claim_C9_witness :
    (flattenPieces c1Input (formatWithCompile "%s x %>s"))[0]? =
      some (pureStatus c1Input) ∧
    (flattenPieces c1Input (formatWithCompile "%s x %>s"))[2]? =
      some (pureStatus c1Input) :=
  claim_C9 (formatWithCompile "%s x %>s") c1Input 0 2 "" ""
    (by decide) (by decide)

lemma string_data_inj {a b : String} (h : a.data = b.data) : a = b := by
  cases a with
  | mk d =>
    cases b with
    | mk e => cases h; rfl

lemma strData_append (a b : String) : (a ++ b).data = a.data ++ b.data := rfl

/-- C4 counterexample: the claim's "computed only once per
kind-plus-key per render" fails for enclosure-keyed directives and for
an empty memoised value.  Rendering `%{a}i %{a}i` performs the
`r.Header.Get("a")` lookup twice (the default branch of `flatten` has no
cache), and rendering `%u %u` against an Authorization header whose
decoded user part is empty recomputes the username at both slots
(the empty cache string never registers as filled). -/
theorem claim_C4_counterexample :
    countEvent (REvent.headerGet "a")
      (flattenEvents headerAInput (formatWithCompile "%{a}i %{a}i")) = 2 ∧
    countEvent (REvent.miss MemoKind.user)
      (flattenEvents emptyUserInput (formatWithCompile "%u %u")) = 2 := by
  decide

/-- C4 amended: within one render, slots holding the same directive
string (same kind, and same key for enclosure directives) always emit
the identical value; and for the six memoised kinds the underlying value
is computed at most once per render whenever that value is non-empty.
(Enclosure-keyed slots are recomputed at every occurrence, and an empty
memoised value is recomputed per slot — the counterexample.) -/
theorem claim_C4_amended (ps : List (String × String)) (inp : LineInput) :
    (∀ (i j : Nat) (d bi bj : String), d ≠ "" →
      ps[i]? = some (d, bi) → ps[j]? = some (d, bj) →
      (flattenPieces inp ps)[i]? = (flattenPieces inp ps)[j]?) ∧
    (∀ k : MemoKind, pureKind k inp ≠ "" →
      countEvent (REvent.miss k) (flattenEvents inp ps) ≤ 1) := by
  constructor
  · intro i j d bi bj hd hi hj
    rw [flatten_transparent, List.getElem?_map, List.getElem?_map, hi, hj]
    show some (pureEmit inp (d, bi)) = some (pureEmit inp (d, bj))
    rw [pureEmit_between_irrelevant inp d bi bj hd]
  · intro k hk
    have hb := flattenExec_countBound inp k hk ps initMemo
      (Or.inl (memoField_init k))
    simpa [memoField_init] using hb

/-- C4 witness: in the program of `%b and %b` the two `%b` slots emit
the same piece, and the username (value `-`, non-empty) is computed at
most once. -/
theorem claim_C4_witness :
    (flattenPieces c1Input (formatWithCompile "%b and %b"))[0]? =
      (flattenPieces c1Input (formatWithCompile "%b and %b"))[2]? ∧
    countEvent (REvent.miss MemoKind.user)
      (flattenEvents c1Input (formatWithCompile "%b and %b")) ≤ 1 := by
  have h := claim_C4_amended (formatWithCompile "%b and %b") c1Input
  exact ⟨h.1 0 2 "%b" "" "" (by decide) (by decide) (by decide),
    h.2 MemoKind.user (by decide)⟩

/-- C5 counterexample: the code's key-less `%t` layout is
`[02/01/2006:03:04:05 -0700]`, whose `03` chunk is the zero-padded
TWELVE-hour clock, not the 24-hour clock the claim states: at the test
instant (19:54) the rendered hour is `07`, so the render differs from
the spec-worded 24-hour pattern. -/
theorem claim_C5_counterexample :
    flatten [("%t", "")] c1Input = "[03/02/2013:07:54:00 +0000]" ∧
    specDefaultTimestamp c1Input.time = "[03/02/2013:19:54:00 +0000]" ∧
    flatten [("%t", "")] c1Input ≠ specDefaultTimestamp c1Input.time := by
  decide

/-- C5 amended: a key-less `%t` renders
`[dd/MM/yyyy:hh:mm:ss ±hhmm]` where `hh` is the ZERO-PADDED TWELVE-hour
clock value (no AM/PM marker); day, month, minutes and seconds are
zero-padded, the year is four digits, and the offset is the signed
`±hhmm` of the instant's zone. -/
theorem claim_C5_amended (req : Request) (w : ResponseWriterState) (t : GoTime) :
    flatten [("%t", "")] { request := req, writer := w, time := t } =
      "[" ++ pad2 t.day ++ "/" ++ pad2 t.month ++ "/" ++ pad4Int t.year ++
        ":" ++ pad2 (hour12 t.hour) ++ ":" ++ pad2 t.minute ++ ":" ++
        pad2 t.second ++ " " ++ goOffset t.offsetMinutes ++ "]" := by
  show strJoin (flattenPieces _ [("%t", "")]) = _
  rw [flatten_transparent]
  show pureTime _ ++ "" = _
  rw [string_append_empty]
  show goTimeFormat t defaultTimeLayout = _
  apply string_data_inj
  have hL : (goTimeFormat t defaultTimeLayout).data =
      '[' :: ((pad2 t.day).data ++ '/' :: ((pad2 t.month).data ++
        '/' :: ((pad4Int t.year).data ++ ':' :: ((pad2 (hour12 t.hour)).data ++
        ':' :: ((pad2 t.minute).data ++ ':' :: ((pad2 t.second).data ++
        ' ' :: ((goOffset t.offsetMinutes).data ++ [']']))))))) := rfl
  rw [hL]
  simp [strData_append]

/-- C6 counterexample: the test instant 2013-02-03 is a Sunday
(`Weekday() = 0`), and the nested time token `%w` renders `0`, not the
`7` the claim requires — the Sunday-to-7 mapping belongs to `%u`. -/
theorem claim_C6_counterexample :
    convertTimeFormat testTime "%w" = "0" ∧
    convertTimeFormat testTime "%w" ≠ "7" := by decide

/-- C6 amended: on any instant, the nested token `%s` renders the Unix
epoch seconds in decimal; `%u` renders the ISO weekday number with
Sunday mapped to 7; and `%w` renders the plain Go weekday number with
Sunday as 0. -/
theorem claim_C6_amended (t : GoTime) :
    convertTimeFormat t "%s" = itoa t.unix ∧
    convertTimeFormat t "%u" = itoa (if t.weekday = 0 then 7 else t.weekday) ∧
    convertTimeFormat t "%w" = itoa t.weekday := by
  refine ⟨?_, ?_, ?_⟩
  · show String.mk ((itoa t.unix).data ++ []) = itoa t.unix
    rw [List.append_nil]
  · show String.mk
      ((itoa (if t.weekday = 0 then 7 else t.weekday)).data ++ []) = _
    rw [List.append_nil]
  · show String.mk ((itoa t.weekday).data ++ []) = itoa t.weekday
    rw [List.append_nil]

/-- C7 counterexample: a token character entirely absent from
`timeFmtMap` (here `q`) renders the text `(%q is invalid)`, not the
single `?` the claim requires for every unsupported token. -/
theorem claim_C7_counterexample :
    convertTimeFormat testTime "%q" = "(%q is invalid)" ∧
    convertTimeFormat testTime "%q" ≠ "?" := by decide

/-- C7 amended: the tokens the translation table explicitly marks
unsupported (`c E O U W x X +`) render the literal `?` on any instant,
and the translator never fails; but a token character absent from the
table altogether renders the literal text `(%<token> is invalid)`
instead (shown for `q`). -/
theorem claim_C7_amended (t : GoTime) (c : Char)
    (hc : c ∈ ['c', 'E', 'O', 'U', 'W', 'x', 'X', '+']) :
    convertTimeFormat t (String.mk ['%', c]) = "?" ∧
    convertTimeFormat t "%q" = "(%q is invalid)" := by
  refine ⟨?_, rfl⟩
  fin_cases hc <;> rfl

/-- C7 witness: `%c` renders `?` and `%q` renders `(%q is invalid)` at
the test instant. -/
theorem claim_C7_witness :
    convertTimeFormat testTime (String.mk ['%', 'c']) = "?" ∧
    convertTimeFormat testTime "%q" = "(%q is invalid)" :=
  claim_C7_amended testTime 'c' (by decide)

/-- C10 counterexample: the "renders `-` exactly when ..." direction
fails: for the Authorization header `B LTo=` the payload decodes to
`-:`, which contains a colon, yet `%u` renders `-` — because the decoded
user part before the colon happens to be the literal `-` itself. -/
theorem claim_C10_counterexample :
    flatten [("%u", "")] dashUserInput = "-" ∧
    splitN2 "B LTo=" ' ' = some ("B", "LTo=") ∧
    base64Decode "LTo=" = some "-:" ∧
    splitN2 "-:" ':' = some ("-", "") := by decide

/-- C10 amended: for a header `<scheme> <payload>` with a space-free
scheme word, the username depends only on the payload — the scheme is
never inspected: it is the part of the base64-decoded payload before
the first colon when decoding succeeds and a colon is present, and `-`
whenever decoding fails or no colon is present; a header without a
space (including the absent-header empty string) always yields `-`.
(The converse of the `-` case fails: the decoded user part may itself
be `-`, as the counterexample shows.) -/
theorem claim_C10_amended (scheme payload noSpace : String)
    (hs : ∀ c ∈ scheme.data, c ≠ ' ') (hn : ∀ c ∈ noSpace.data, c ≠ ' ') :
    usernameOf (scheme ++ " " ++ payload) =
      (match base64Decode payload with
       | none => "-"
       | some decoded =>
         match splitN2 decoded ':' with
         | none => "-"
         | some pair => pair.1) ∧
    usernameOf noSpace = "-" := by
  constructor
  · unfold usernameOf
    have hd : (scheme ++ " " ++ payload).data =
        scheme.data ++ ' ' :: payload.data := by
      rw [strData_append, strData_append]
      simp
    have hsplit : splitN2 (scheme ++ " " ++ payload) ' ' =
        some (scheme, payload) := by
      unfold splitN2
      rw [hd, splitFirst_append ' ' scheme.data payload.data hs]
      rfl
    rw [hsplit]
  · unfold usernameOf
    have hsplit : splitN2 noSpace ' ' = none := by
      unfold splitN2
      rw [splitFirst_no_sep ' ' noSpace.data hn]
      rfl
    rw [hsplit]

/-- C10 witness: a `Bearer` scheme (not `Basic`) with payload
`YWxpY2U6cHc=` (decoding to `alice:pw`) renders the user `alice`, and
the space-free header `nospace` renders `-`. -/
theorem claim_C10_witness :
    usernameOf ("Bearer" ++ " " ++ "YWxpY2U6cHc=") = "alice" ∧
    usernameOf "nospace" = "-" := by
  have h := claim_C10_amended "Bearer" "YWxpY2U6cHc=" "nospace"
    (by decide) (by decide)
  exact ⟨h.1.trans (by decide), h.2⟩
